import Mathlib

/-
Shallow embedding of the layercode-release-reports deploy-report pipeline.

The TypeScript sources embedded here are:
  * lib/github.ts          — fetchCommitsFromGitHub (paginated commit fetch,
                             merge filtering, field normalization)
  * lib/openai-summary.ts  — generateSummaryHtml (prompting, whitespace
                             fallback, HTML escaping)
  * lib/errors.ts          — HttpError / UpstreamError
  * app/deploy-report GET  — the route handler (validation, 120 s deadline,
                             error mapping, response assembly)

Effects are made explicit: the GitHub host is a function from page numbers
to responses, the language-model call is an `Except` value supplied by the
environment, `new Date()` readings are string parameters, and thrown JS
errors are an inductive type.  The pagination `while (true)` loop is run on
explicit fuel; exhausted fuel is reported as an error so that every `.ok`
result corresponds to a terminated run of the real loop.
-/

namespace ReleaseReports

/-! String primitives, re-implemented over the underlying character lists
(rather than byte positions) so that they compute by kernel reduction.
Each models the JS string method named in its doc comment; JS strings here
hold only Unicode the two agree on (the case mappings are applied to ASCII
protocol text). -/

/-- JS `String.prototype.includes` on the underlying character lists. -/
def includesAux (hay needle : List Char) : Bool :=
  match hay with
  | [] => needle.isEmpty
  | _ :: rest => needle.isPrefixOf hay || includesAux rest needle

/-- JS `hay.includes(sub)` (substring containment). -/
def strIncludes (hay sub : String) : Bool :=
  includesAux hay.data sub.data

/-- JS `s.trim()`. -/
def strTrim (s : String) : String :=
  ⟨((s.data.dropWhile Char.isWhitespace).reverse.dropWhile Char.isWhitespace).reverse⟩

/-- JS `s.toLowerCase()`. -/
def strToLower (s : String) : String :=
  ⟨s.data.map Char.toLower⟩

/-- JS `s.startsWith(p)`. -/
def strStartsWith (s p : String) : Bool :=
  p.data.isPrefixOf s.data

/-- JS `s.split(sep)` for a one-character separator, on character lists:
the list of (possibly empty) chunks between occurrences of `sep`. -/
def splitChar (sep : Char) : List Char → List (List Char)
  | [] => [[]]
  | c :: rest =>
    let r := splitChar sep rest
    if c == sep then [] :: r
    else
      match r with
      | [] => [[c]]
      | h :: t => (c :: h) :: t

/-- JS `s.split(sep)` for a one-character separator. -/
def strSplitChar (s : String) (sep : Char) : List String :=
  (splitChar sep s.data).map fun l => ⟨l⟩

/-- JS `parts.join(sep)`. -/
def strIntercalate (sep : String) : List String → String
  | [] => ""
  | [x] => x
  | x :: rest => x ++ sep ++ strIntercalate sep rest

/-- Exceptions thrown by the TypeScript code, as far as the pipeline
inspects them: `HttpError` and `UpstreamError` from lib/errors.ts, abort
exceptions (`DOMException` named "AbortError"), and any other thrown value,
carrying an optional numeric `status` field and an optional `message`
(`none` models a thrown non-`Error` value). -/
inductive JsError where
  | httpError (status : Nat) (message : String)
  | upstreamError (upstream : String) (status : Nat) (message : String)
  | abortError (message : String)
  | genericError (status : Option Nat) (message : Option String)
deriving Repr, DecidableEq

/-- types/report.ts `CommitAuthor`. -/
structure CommitAuthor where
  login : Option String
  name : Option String
deriving Repr, DecidableEq

/-- types/report.ts `CommitSummary`. -/
structure CommitSummary where
  sha : String
  date : String
  author : CommitAuthor
  message : String
  summary_line : String
  is_merge : Bool
deriving Repr, DecidableEq

/-- lib/github.ts `GitHubCommit`: the raw host record, flattened.
`parents` is `some n` when the host supplied a parents array with `n`
entries, `none` when the field is absent. -/
structure GitHubCommit where
  sha : String
  commitAuthorName : Option String
  commitAuthorDate : Option String
  commitCommitterName : Option String
  commitCommitterDate : Option String
  message : Option String
  authorLogin : Option String
  parents : Option Nat
deriving Repr, DecidableEq

/-- One GitHub HTTP response: the status code, the `message` field of the
parsed JSON body when the body parses to an object with a string `message`
(`none` otherwise), and the commit list delivered on a success status. -/
structure GitHubPage where
  status : Nat
  bodyMessage : Option String
  commits : List GitHubCommit
deriving Repr

/-- lib/github.ts `PER_PAGE`. -/
def PER_PAGE : Nat := 100

/-- The summary line of a raw record: first line of the message, trimmed
(`message.split("\n")[0]?.trim() ?? ""` with `message = commit.commit?.message ?? ""`). -/
def summaryLineOf (c : GitHubCommit) : String :=
  strTrim ((strSplitChar (c.message.getD "") (Char.ofNat 10)).headD "")

/-- lib/github.ts merge test:
`(Array.isArray(commit.parents) && commit.parents.length > 1) || summaryLine.toLowerCase().startsWith("merge")`.
JS `toLowerCase` is modelled by `strToLower` (they agree on ASCII). -/
def rawIsMerge (c : GitHubCommit) : Bool :=
  decide (1 < c.parents.getD 0) || strStartsWith (strToLower (summaryLineOf c)) "merge"

/-- The normalization step of the `for (const commit of pageCommits)` loop
body: `none` when the record is a merge and is skipped, otherwise the
`CommitSummary` pushed onto `normalized`.  `now` is the
`new Date().toISOString()` reading used when both host dates are absent. -/
def normalizeCommit (now : String) (c : GitHubCommit) : Option CommitSummary :=
  if rawIsMerge c then none
  else
    some
      { sha := c.sha
        date :=
          c.commitAuthorDate.getD (c.commitCommitterDate.getD now)
        author :=
          { login := c.authorLogin
            name :=
              match c.commitAuthorName with
              | some n => some n
              | none => c.commitCommitterName }
        message := c.message.getD ""
        summary_line := summaryLineOf c
        is_merge := false }

/-- All records a page contributes to `normalized`, in order. -/
def processPage (now : String) (l : List GitHubCommit) : List CommitSummary :=
  l.filterMap (normalizeCommit now)

/-- The `while (true)` pagination loop of `fetchCommitsFromGitHub`, on
explicit fuel.  `pages` is the host: the response returned for each page
number.  Branches mirror the source order: the 403/429 inspection, the
`!response.ok` check, then normalization and the `length < PER_PAGE`
last-page test. -/
def fetchGo (pages : Nat → GitHubPage) (now : String) :
    Nat → List CommitSummary → Nat → Except JsError (List CommitSummary)
  | _, _, 0 => .error (.genericError none (some "pagination fuel exhausted"))
  | page, acc, Nat.succ fuel =>
    let resp := pages page
    if resp.status == 403 || resp.status == 429 then
      let message := resp.bodyMessage.getD "GitHub API rate limit or permission error."
      if strIncludes (strToLower message) "secondary rate limit" then
        .error (.httpError 429 message)
      else
        .error (.upstreamError "github" resp.status message)
    else if !(200 ≤ resp.status && resp.status < 300) then
      let message :=
        resp.bodyMessage.getD
          ("GitHub API request failed with status " ++ toString resp.status ++ ".")
      .error (.upstreamError "github" resp.status message)
    else
      let acc' := acc ++ processPage now resp.commits
      if resp.commits.length < PER_PAGE then .ok acc'
      else fetchGo pages now (page + 1) acc' fuel

/-- lib/github.ts `fetchCommitsFromGitHub`.  `repo`, `token`, `since` and
`until` only shape the outgoing request (URL and headers); the host's
behaviour is abstracted as `pages`, so they do not affect the result — they are
kept to mirror the source signature. -/
def fetchCommitsFromGitHub (repo token since untilS : String)
    (pages : Nat → GitHubPage) (now : String) (fuel : Nat) :
    Except JsError (List CommitSummary) :=
  let _ := (repo, token, since, untilS)
  fetchGo pages now 1 [] fuel

/-! Calendar-date utilities, modelling the JS `Date` operations the route
and the composer perform on `YYYY-MM-DD` strings and on the UTC ISO
timestamps carried by commit records. -/

/-- Gregorian leap-year test. -/
def isLeap (y : Nat) : Bool :=
  y % 4 == 0 && (y % 100 != 0 || y % 400 == 0)

/-- Length of month `m` (1-based) in year `y`. -/
def daysInMonth (y m : Nat) : Nat :=
  if m == 2 then (if isLeap y then 29 else 28)
  else if m == 4 || m == 6 || m == 9 || m == 11 then 30
  else 31

/-- Days in years `0, …, y-1` of the proleptic Gregorian calendar. -/
def daysBeforeYear (y : Nat) : Nat :=
  365 * y + (y + 3) / 4 - (y + 99) / 100 + (y + 399) / 400

/-- Days in months `1, …, m-1` of year `y`. -/
def daysBeforeMonth (y m : Nat) : Nat :=
  let base :=
    match m with
    | 1 => 0 | 2 => 31 | 3 => 59 | 4 => 90 | 5 => 120 | 6 => 151
    | 7 => 181 | 8 => 212 | 9 => 243 | 10 => 273 | 11 => 304 | _ => 334
  base + (if 2 < m && isLeap y then 1 else 0)

/-- Linear day number of a `(year, month, day)` triple; differences of day
numbers are exact day counts, matching differences of JS `getTime()`
readings of the corresponding UTC midnights divided by 86 400 000. -/
def dayNumber (d : Nat × Nat × Nat) : Nat :=
  daysBeforeYear d.1 + daysBeforeMonth d.1 d.2.1 + (d.2.2 - 1)

/-- Numeric value of an ASCII digit. -/
def digitVal (c : Char) : Nat := c.toNat - 48

/-- The route's `DATE_ONLY_REGEX = /^\d{4}-\d{2}-\d{2}$/` test. -/
def dateShape (s : String) : Bool :=
  match s.data with
  | [y1, y2, y3, y4, s1, m1, m2, s2, d1, d2] =>
    y1.isDigit && y2.isDigit && y3.isDigit && y4.isDigit && s1 == '-' &&
      m1.isDigit && m2.isDigit && s2 == '-' && d1.isDigit && d2.isDigit
  | _ => false

/-- Digits of a shape-checked `YYYY-MM-DD` string, as a `(y, m, d)` triple. -/
def parseYMD (s : String) : Nat × Nat × Nat :=
  match s.data with
  | [y1, y2, y3, y4, _, m1, m2, _, d1, d2] =>
    (((digitVal y1 * 10 + digitVal y2) * 10 + digitVal y3) * 10 + digitVal y4,
      digitVal m1 * 10 + digitVal m2,
      digitVal d1 * 10 + digitVal d2)
  | _ => (0, 0, 0)

/-- Models JS `new Date(s + "T00:00:00Z")` on a shape-checked `s`: `none`
when `getTime()` is NaN (a month or day component out of range makes the
ISO string an Invalid Date), otherwise the calendar triple. -/
def parseValidDate (s : String) : Option (Nat × Nat × Nat) :=
  let d := parseYMD s
  if 1 ≤ d.2.1 ∧ d.2.1 ≤ 12 ∧ 1 ≤ d.2.2 ∧ d.2.2 ≤ daysInMonth d.1 d.2.1 then
    some d
  else none

/-- English month names as produced by `toLocaleDateString("en-US", {month: "long"})`. -/
def monthLongName (m : Nat) : String :=
  match m with
  | 1 => "January" | 2 => "February" | 3 => "March" | 4 => "April"
  | 5 => "May" | 6 => "June" | 7 => "July" | 8 => "August"
  | 9 => "September" | 10 => "October" | 11 => "November" | 12 => "December"
  | _ => ""

/-- Models `new Date(s).toLocaleDateString("en-US", {year: "numeric",
month: "long", day: "numeric"})` for the `YYYY-MM-DD` strings the route
passes down, on a host whose clock runs at UTC. -/
def jsLocaleDateString (s : String) : String :=
  if dateShape s then
    match parseValidDate s with
    | some d => monthLongName d.2.1 ++ " " ++ toString d.2.2 ++ ", " ++ toString d.1
    | none => "Invalid Date"
  else "Invalid Date"

/-- Models JS `new Date(s).toISOString().slice(0, 10)` for the UTC ISO-8601
timestamps this pipeline stores in `CommitSummary.date` (either
"YYYY-MM-DDThh:mm:ssZ" from the host or the client's own `toISOString()`
reading): the first ten characters are the UTC calendar day. -/
def jsUtcDayKey (s : String) : String := ⟨s.data.take 10⟩

/-! lib/openai-summary.ts — the summary composer. -/

/-- One step of `escapeHtml`'s regex replacement: the substitution for a
single character. -/
def escapeChar (c : Char) : String :=
  if c == '&' then "&amp;"
  else if c == '<' then "&lt;"
  else if c == '>' then "&gt;"
  else if c == Char.ofNat 34 then "&quot;"
  else if c == Char.ofNat 39 then "&#39;"
  else String.singleton c

/-- lib/openai-summary.ts `escapeHtml`: global replacement of the
characters matched by `[&<>"']`. -/
def escapeHtml (s : String) : String :=
  s.data.foldl (fun acc c => acc ++ escapeChar c) ""

/-- lib/openai-summary.ts `extractCommitDetails`: `(title, description)`. -/
def extractCommitDetails (message : String) : String × String :=
  let parts := strSplitChar message (Char.ofNat 10)
  let title := strTrim (parts.headD "")
  (if title == "" then "Untitled commit" else title,
    strTrim (strIntercalate "\n" parts.tail))

/-- lib/openai-summary.ts `buildBulletList`. -/
def buildBulletList (commits : List CommitSummary) : String :=
  strIntercalate "\n"
    (commits.map fun c =>
      let td := extractCommitDetails c.message
      let date := if c.date == "" then "????-??-??" else jsUtcDayKey c.date
      let detail := if td.2 == "" then "No additional description provided." else td.2
      date ++ " • " ++ td.1 ++ "\nDescription: " ++ detail)

/-- The grouping key of `buildFallbackSummary`:
`commit.date ? new Date(commit.date).toISOString().slice(0, 10) : "Unknown date"`. -/
def commitDayKey (c : CommitSummary) : String :=
  if c.date == "" then "Unknown date" else jsUtcDayKey c.date

/-- One step of the `reduce` that builds `grouped`: push `c` onto the entry
for `key`, or create that entry (JS object keys keep insertion order; the
day keys are not array indices, so entry order is first-occurrence order). -/
def insertGrouped :
    List (String × List CommitSummary) → String → CommitSummary →
      List (String × List CommitSummary)
  | [], key, c => [(key, [c])]
  | e :: rest, key, c =>
    if e.1 == key then (e.1, e.2 ++ [c]) :: rest
    else e :: insertGrouped rest key c

/-- The `grouped` object of `buildFallbackSummary`, as an ordered
association list. -/
def groupByDay (commits : List CommitSummary) :
    List (String × List CommitSummary) :=
  commits.foldl (fun acc c => insertGrouped acc (commitDayKey c) c) []

/-- Order used by `Object.entries(grouped).sort(([a], [b]) => (a <= b ? -1 : 1))`:
ascending string comparison of the day keys (keys of `grouped` are
pairwise distinct, so the comparator is consistent and the sorted order is
unique). -/
def entryLE (a b : String × List CommitSummary) : Prop := a.1 ≤ b.1

instance : DecidableRel entryLE :=
  fun a b => inferInstanceAs (Decidable (a.1 ≤ b.1))

instance : IsTotal (String × List CommitSummary) entryLE :=
  ⟨fun a b => le_total a.1 b.1⟩

instance : IsTrans (String × List CommitSummary) entryLE :=
  ⟨fun _ _ _ h h' => le_trans h h'⟩

/-- The `.sort` call on `Object.entries(grouped)`. -/
def sortEntries (l : List (String × List CommitSummary)) :
    List (String × List CommitSummary) :=
  l.insertionSort entryLE

/-- The list-item label inside the fallback:
`commit.summary_line || commit.message.split("\n")[0] || commit.sha`. -/
def fallbackItemLabel (c : CommitSummary) : String :=
  if c.summary_line != "" then c.summary_line
  else if (strSplitChar c.message (Char.ofNat 10)).headD "" != "" then
    (strSplitChar c.message (Char.ofNat 10)).headD ""
  else c.sha

/-- One `<li>` of the fallback listing. -/
def fallbackItem (c : CommitSummary) : String :=
  "<li><strong>" ++ escapeHtml (fallbackItemLabel c) ++ "</strong></li>"

/-- One `<article>` of the fallback, whitespace exactly as in the template
literal of `buildFallbackSummary`. -/
def fallbackArticle (date : String) (items : List CommitSummary) : String :=
  "\n        <article>\n          <h3>" ++ date ++
    "</h3>\n          <ul>\n            " ++
    String.join (items.map fallbackItem) ++
    "\n          </ul>\n        </article>\n      "

/-- lib/openai-summary.ts `buildFallbackSummary`. -/
def buildFallbackSummary (repo start endS : String)
    (commits : List CommitSummary) : String :=
  let _ := repo
  let sections :=
    String.join ((sortEntries (groupByDay commits)).map fun e => fallbackArticle e.1 e.2)
  let startDate := jsLocaleDateString start
  let endDate := jsLocaleDateString endS
  "\n    <section>\n      <p>Activity covering " ++ escapeHtml startDate ++
    " to " ++ escapeHtml endDate ++ ".</p>\n      " ++
    (if sections == "" then "<p>No non-merge commits were available.</p>" else sections) ++
    "\n    </section>\n  "

/-- The `catch` clause of `generateSummaryHtml`: `HttpError` and abort
exceptions are rethrown unchanged; anything else becomes
`UpstreamError("openai", status-field-or-502, message-or-fixed-fallback)`. -/
def wrapModelError (e : JsError) : JsError :=
  match e with
  | .httpError s m => .httpError s m
  | .abortError m => .abortError m
  | .upstreamError _ s m => .upstreamError "openai" s m
  | .genericError st m =>
    .upstreamError "openai" (st.getD 502) (m.getD "OpenAI text completion failed.")

/-- lib/openai-summary.ts `generateSummaryHtml`.  `modelResponse` is the
text the `generateText` call would deliver (or the error it would throw);
the returned flag records whether the model call was reached. -/
def generateSummaryHtml (model apiKey repo start endS : String)
    (commits : List CommitSummary) (modelResponse : Except JsError String) :
    Except JsError String × Bool :=
  if apiKey == "" then
    (.error (.httpError 500 "OPENAI_API_KEY is not configured."), false)
  else if model == "" then
    (.error (.httpError 500 "OpenAI model is not configured."), false)
  else if commits.length == 0 then
    (.ok ("<section><p>No commits found between " ++ start ++ " and " ++ endS ++
      " for " ++ repo ++ ".</p></section>"), false)
  else
    let _ := buildBulletList commits
    match modelResponse with
    | .error e => (.error (wrapModelError e), true)
    | .ok text =>
      let raw := strTrim text
      if raw == "" then (.ok (buildFallbackSummary repo start endS commits), true)
      else if strStartsWith raw "<" then (.ok raw, true)
      else (.ok ("<section><p>" ++ escapeHtml raw ++ "</p></section>"), true)

/-! app/deploy-report/route.ts — the `GET` handler. -/

/-- Route constant `MAX_WINDOW_DAYS`. -/
def MAX_WINDOW_DAYS : Nat := 30

/-- Route constant `TOTAL_TIMEOUT_MS` (the 120 s deadline). -/
def TOTAL_TIMEOUT_MS : Nat := 120000

/-- types/report.ts `DeployReportResponse.meta`. -/
structure ReportMeta where
  commit_count : Nat
  model : String
  generated_at : String
  source : String
deriving Repr, DecidableEq

/-- types/report.ts `DeployReportResponse`. -/
structure DeployReportResponse where
  repo : String
  start : String
  «end» : String
  commits : List CommitSummary
  summary_html : String
  meta : ReportMeta
deriving Repr, DecidableEq

/-- What the route hands back to the framework: either the JSON success
body, or `NextResponse.json({message}, {status})`. -/
inductive GetResult where
  | ok (body : DeployReportResponse)
  | err (status : Nat) (message : String)
deriving Repr, DecidableEq

/-- A run of the handler: its response plus whether the GitHub fetch and
the model call were reached. -/
structure GetOutcome where
  response : GetResult
  fetchCalled : Bool
  modelCalled : Bool
deriving Repr, DecidableEq

/-- The process environment the route reads. -/
structure Env where
  githubRepo : Option String
  githubToken : Option String
  openaiApiKey : Option String
  openaiModel : Option String
  openaiRealtimeModel : Option String

/-- Route `normalizeModelName`: trim, then keep the segment after the last
"/" (or the whole trimmed value when that segment is empty). -/
def normalizeModelName (input : Option String) : Option String :=
  match input with
  | none => none
  | some s =>
    let trimmed := strTrim s
    if trimmed == "" then none
    else
      let segments := strSplitChar trimmed (Char.ofNat 47)
      let lastSeg := segments.getLastD ""
      some (if lastSeg == "" then trimmed else lastSeg)

/-- Route `toIsoRange`. -/
def toIsoRange (start endS : String) : String × String :=
  (start ++ "T00:00:00Z", endS ++ "T23:59:59Z")

/-- The `catch` block of the handler, given whether
`abortController.signal.aborted` was set when the error arrived. -/
def handleCatch (aborted : Bool) (e : JsError) : GetResult :=
  if aborted then .err 504 "Processing exceeded the 120s timeout."
  else
    match e with
    | .httpError s m => .err s m
    | .upstreamError _ s m => .err (if 400 ≤ s then s else 502) m
    | .abortError _ => .err 504 "Processing exceeded the 120s timeout."
    | .genericError _ m =>
      .err 502 (m.getD "Unexpected error while generating deploy report.")

/-- The success body the handler assembles (`responseBody`), with
`generated_at` the handler's own `new Date().toISOString()` reading. -/
def mkBody (repo start endS : String) (commits : List CommitSummary)
    (model : Option String) (nowMeta html : String) : DeployReportResponse :=
  { repo := repo
    start := start
    «end» := endS
    commits := commits
    summary_html := html
    meta :=
      { commit_count := commits.length
        model := model.getD "unknown"
        generated_at := nowMeta
        source := "github_live" } }

/-- The validation and configuration section of the handler, in source
order: presence, shape and calendar validity of the dates, ordering, the
30-day cap, then the GitHub repo/token configuration.  On success it
yields `(repo, token, start, end, model)` with `model` already
normalized. -/
def validateGet (env : Env) (qStart qEnd : Option String) :
    Except (Nat × String) (String × String × String × String × Option String) :=
  if qStart.getD "" == "" || qEnd.getD "" == "" then
    .error (400, "Both start and end dates are required.")
  else
    let start := qStart.getD ""
    let endS := qEnd.getD ""
    if !dateShape start || !dateShape endS then
      .error (400, "Dates must be formatted as YYYY-MM-DD.")
    else
      match parseValidDate start, parseValidDate endS with
      | none, _ => .error (400, "Start and end dates must be valid.")
      | some _, none => .error (400, "Start and end dates must be valid.")
      | some ds, some de =>
        if dayNumber de < dayNumber ds then
          .error (400, "Start date cannot be after end date.")
        else if MAX_WINDOW_DAYS < dayNumber de - dayNumber ds + 1 then
          .error (413, "Date span cannot exceed 30 days.")
        else
          let model := normalizeModelName (env.openaiModel.orElse fun _ => env.openaiRealtimeModel)
          if env.githubRepo.getD "" == "" then
            .error (500, "GITHUB_REPO is not configured.")
          else if env.githubToken.getD "" == "" then
            .error (500, "GITHUB_TOKEN is not configured.")
          else
            .ok (env.githubRepo.getD "", env.githubToken.getD "", start, endS, model)

/-- The `try` block of the handler and its `catch`: fetch the commits,
then (only for a non-empty batch) compose the summary, then assemble the
body; any thrown error goes through `handleCatch` with the deadline flag
`aborted`. -/
def runPipeline (repo token start endS : String) (model apiKey : Option String)
    (pages : Nat → GitHubPage) (fuel : Nat) (nowFetch : String)
    (modelResponse : Except JsError String) (aborted : Bool) (nowMeta : String) :
    GetOutcome :=
  let iso := toIsoRange start endS
  match fetchCommitsFromGitHub repo token iso.1 iso.2 pages nowFetch fuel with
  | .error e => ⟨handleCatch aborted e, true, false⟩
  | .ok commits =>
    if 0 < commits.length then
      match generateSummaryHtml (model.getD "") (apiKey.getD "") repo start endS
          commits modelResponse with
      | (.error e, called) => ⟨handleCatch aborted e, true, called⟩
      | (.ok html, called) => ⟨.ok (mkBody repo start endS commits model nowMeta html), true, called⟩
    else
      ⟨.ok (mkBody repo start endS commits model nowMeta
        ("<section><p>No commits found between " ++ start ++ " and " ++ endS ++
          ".</p></section>")), true, false⟩

/-- app/deploy-report/route.ts `GET`.  `qStart`/`qEnd` are the query
parameters (`none` when absent), `pages` the GitHub host, `modelResponse`
the model call's outcome, `aborted` whether the 120 s timer had fired by
the time an error reached the `catch`, and `nowFetch`/`nowMeta` the two
`new Date()` readings (timestamp fallback during fetch, `generated_at`). -/
def GET (env : Env) (qStart qEnd : Option String) (pages : Nat → GitHubPage)
    (fuel : Nat) (nowFetch : String) (modelResponse : Except JsError String)
    (aborted : Bool) (nowMeta : String) : GetOutcome :=
  match validateGet env qStart qEnd with
  | .error (s, m) => ⟨.err s m, false, false⟩
  | .ok (repo, token, start, endS, model) =>
    runPipeline repo token start endS model env.openaiApiKey pages fuel
      nowFetch modelResponse aborted nowMeta

/-- Replace `meta.generated_at` of a success body by `t` (identity on
error responses); used to compare two runs up to their completion times. -/
def setGeneratedAt (r : GetResult) (t : String) : GetResult :=
  match r with
  | .ok body => .ok { body with meta := { body.meta with generated_at := t } }
  | .err s m => .err s m

/-! Helper lemmas. -/

lemma mem_processPage_is_merge (now : String) (l : List GitHubCommit) :
    ∀ r ∈ processPage now l, r.is_merge = false := by
  intro r hr
  rw [processPage, List.mem_filterMap] at hr
  obtain ⟨c, _, hnorm⟩ := hr
  unfold normalizeCommit at hnorm
  split at hnorm
  · exact Option.noConfusion hnorm
  · injection hnorm with h
    rw [← h]

lemma fetchGo_is_merge (pages : Nat → GitHubPage) (now : String) :
    ∀ fuel page acc batch,
      (∀ r ∈ acc, r.is_merge = false) →
      fetchGo pages now page acc fuel = .ok batch →
      ∀ r ∈ batch, r.is_merge = false := by
  intro fuel
  induction fuel with
  | zero =>
    intro page acc batch _ h
    simp [fetchGo] at h
  | succ n ih =>
    intro page acc batch hacc h
    simp only [fetchGo] at h
    split at h
    · split at h <;> exact Except.noConfusion h
    · split at h
      · exact Except.noConfusion h
      · split at h
        · injection h with h
          subst h
          intro r hr
          rcases List.mem_append.mp hr with hr | hr
          · exact hacc r hr
          · exact mem_processPage_is_merge now _ r hr
        · refine ih _ _ _ ?_ h
          intro r hr
          rcases List.mem_append.mp hr with hr | hr
          · exact hacc r hr
          · exact mem_processPage_is_merge now _ r hr

/-! Example inputs used by the concrete witness runs. -/

/-- A fully configured environment. -/
def egEnv : Env :=
  ⟨some "owner/repo", some "tok", some "key", some "openai/gpt-5", none⟩

/-- A plain (non-merge) raw record. -/
def egRaw : GitHubCommit :=
  ⟨"abc123", some "Alice", some "2025-01-02T03:04:05Z", some "Bob",
    some "2025-01-02T04:00:00Z", some "Fix bug\nDetails here", some "alice", some 1⟩

/-- A raw record whose trimmed first message line starts with "MERGE". -/
def egMergeRaw : GitHubCommit :=
  ⟨"def456", some "Alice", some "2025-01-03T03:04:05Z", none, none,
    some "  MERGE branch x\nstuff", none, some 1⟩

/-- A raw record with two recorded parents. -/
def egMergeRaw2 : GitHubCommit :=
  ⟨"0789ab", none, none, none, none, some "Regular title", none, some 2⟩

/-- A host that always answers 200 with the three records above. -/
def egPages : Nat → GitHubPage :=
  fun _ => ⟨200, none, [egRaw, egMergeRaw, egMergeRaw2]⟩

/-- The normalization of `egRaw`, the only record surviving the filter. -/
def egBatch : List CommitSummary :=
  [⟨"abc123", "2025-01-02T03:04:05Z", ⟨some "alice", some "Alice"⟩,
    "Fix bug\nDetails here", "Fix bug", false⟩]

/-- C1: a raw host record with recorded parent count > 1, or whose trimmed
first message line starts case-insensitively with "merge", is mapped to
`none` by the normalization step and so contributes nothing to the batch;
and every record of any batch the commit fetch returns carries
`is_merge = false`. -/
theorem merge_records_absent :
    (∀ now c, 1 < c.parents.getD 0 ∨ strStartsWith (strToLower (summaryLineOf c)) "merge" = true →
      normalizeCommit now c = none) ∧
    (∀ repo token since untilS pages now fuel batch,
      fetchCommitsFromGitHub repo token since untilS pages now fuel = .ok batch →
      ∀ r ∈ batch, r.is_merge = false) := by
  constructor
  · intro now c h
    have hm : rawIsMerge c = true := by
      unfold rawIsMerge
      rcases h with h | h
      · simp [h]
      · simp [h]
    simp [normalizeCommit, hm]
  · intro repo token since untilS pages now fuel batch h
    exact fetchGo_is_merge pages now fuel 1 [] batch (by simp) h

/-- Witness for C1: the "MERGE …" record and the two-parent record are
dropped by a concrete run, and the record the run returns has
`is_merge = false`. -/
theorem merge_records_absent_witness :
    normalizeCommit "NOW" egMergeRaw = none ∧
    normalizeCommit "NOW" egMergeRaw2 = none ∧
    ∀ r ∈ egBatch, r.is_merge = false :=
  ⟨merge_records_absent.1 "NOW" egMergeRaw (Or.inr (by decide)),
    merge_records_absent.1 "NOW" egMergeRaw2 (Or.inl (by decide)),
    merge_records_absent.2 "owner/repo" "tok" "2025-01-01T00:00:00Z"
      "2025-01-07T23:59:59Z" egPages "NOW" 5 egBatch rfl⟩

/-- C2: a request whose inclusive day span exceeds 30 days is answered
with 413 and the oversized-request message, and neither the commit fetch
nor the model call is attempted. -/
theorem oversized_window_rejected
    (env : Env) (qStart qEnd : Option String) (pages : Nat → GitHubPage)
    (fuel : Nat) (nowFetch : String) (modelResponse : Except JsError String)
    (aborted : Bool) (nowMeta : String) (s e : String) (ds de : Nat × Nat × Nat)
    (hqs : qStart = some s) (hqe : qEnd = some e)
    (hss : dateShape s = true) (hse : dateShape e = true)
    (hps : parseValidDate s = some ds) (hpe : parseValidDate e = some de)
    (hord : dayNumber ds ≤ dayNumber de)
    (hspan : 30 < dayNumber de - dayNumber ds + 1) :
    GET env qStart qEnd pages fuel nowFetch modelResponse aborted nowMeta =
      ⟨.err 413 "Date span cannot exceed 30 days.", false, false⟩ := by
  subst hqs; subst hqe
  have hs0 : s ≠ "" := by
    intro h; rw [h] at hss; exact absurd hss (by decide)
  have he0 : e ≠ "" := by
    intro h; rw [h] at hse; exact absurd hse (by decide)
  have hval : validateGet env (some s) (some e) =
      .error (413, "Date span cannot exceed 30 days.") := by
    unfold validateGet
    simp only [Option.getD_some]
    rw [if_neg (by simp [hs0, he0])]
    rw [if_neg (by simp [hss, hse])]
    simp only [hps, hpe]
    rw [if_neg (Nat.not_lt.mpr hord)]
    rw [if_pos (show MAX_WINDOW_DAYS < dayNumber de - dayNumber ds + 1 from hspan)]
  unfold GET
  rw [hval]

/-- Witness for C2: a 46-day window is rejected with 413 before any call. -/
theorem oversized_window_rejected_witness :
    GET egEnv (some "2025-01-01") (some "2025-02-15") egPages 5 "NOW" (.ok "x") false "M" =
      ⟨.err 413 "Date span cannot exceed 30 days.", false, false⟩ :=
  oversized_window_rejected egEnv _ _ egPages 5 "NOW" (.ok "x") false "M"
    "2025-01-01" "2025-02-15" (2025, 1, 1) (2025, 2, 15) rfl rfl
    (by decide) (by decide) (by decide) (by decide) (by decide) (by decide)

lemma fetchGo_rate_limit (pages : Nat → GitHubPage) (now : String)
    (page : Nat) (acc : List CommitSummary) (fuel : Nat) (s : Nat) (m : String)
    (hst : (pages page).status = s) (hs : s = 403 ∨ s = 429)
    (hm : (pages page).bodyMessage = some m) :
    (strIncludes (strToLower m) "secondary rate limit" = true →
      fetchGo pages now page acc (fuel + 1) = .error (.httpError 429 m)) ∧
    (strIncludes (strToLower m) "secondary rate limit" = false →
      fetchGo pages now page acc (fuel + 1) = .error (.upstreamError "github" s m)) := by
  have hguard : ((pages page).status == 403 || (pages page).status == 429) = true := by
    rcases hs with rfl | rfl <;> simp [hst]
  constructor <;> intro hinc
  · simp only [fetchGo]
    rw [if_pos hguard, hm]
    simp only [Option.getD_some]
    rw [if_pos hinc]
  · simp only [fetchGo]
    rw [if_pos hguard, hm]
    simp only [Option.getD_some]
    rw [if_neg (by simp [hinc]), hst]

/-- C3: a GitHub response with status 403 or 429 whose body message
contains the phrase "secondary rate limit" case-insensitively makes the
fetch throw `HttpError(429, message)` and the handler answer 429 with that
message verbatim; any other 403/429 response with a parsed message becomes
a generic `UpstreamError` carrying the host status and message, which the
handler surfaces as that status and message. -/
theorem secondary_rate_limit_classified :
    (∀ (pages : Nat → GitHubPage) now page acc fuel s m,
      (pages page).status = s → (s = 403 ∨ s = 429) →
      (pages page).bodyMessage = some m →
      (strIncludes (strToLower m) "secondary rate limit" = true →
        fetchGo pages now page acc (fuel + 1) = .error (.httpError 429 m)) ∧
      (strIncludes (strToLower m) "secondary rate limit" = false →
        fetchGo pages now page acc (fuel + 1) = .error (.upstreamError "github" s m))) ∧
    (∀ env qs qe repo token start endS model (pages : Nat → GitHubPage)
        fuel nowFetch mr nowMeta s m,
      validateGet env qs qe = .ok (repo, token, start, endS, model) →
      (pages 1).status = s → (s = 403 ∨ s = 429) →
      (pages 1).bodyMessage = some m →
      (strIncludes (strToLower m) "secondary rate limit" = true →
        GET env qs qe pages (fuel + 1) nowFetch mr false nowMeta =
          ⟨.err 429 m, true, false⟩) ∧
      (strIncludes (strToLower m) "secondary rate limit" = false →
        GET env qs qe pages (fuel + 1) nowFetch mr false nowMeta =
          ⟨.err s m, true, false⟩)) := by
  constructor
  · intro pages now page acc fuel s m hst hs hm
    exact fetchGo_rate_limit pages now page acc fuel s m hst hs hm
  · intro env qs qe repo token start endS model pages fuel nowFetch mr nowMeta s m
      hv hst hs hm
    have h400 : 400 ≤ s := by rcases hs with rfl | rfl <;> omega
    constructor <;> intro hinc
    · have hf := (fetchGo_rate_limit pages nowFetch 1 [] fuel s m hst hs hm).1 hinc
      unfold GET
      rw [hv]
      unfold runPipeline fetchCommitsFromGitHub
      rw [hf]
      rfl
    · have hf := (fetchGo_rate_limit pages nowFetch 1 [] fuel s m hst hs hm).2 hinc
      unfold GET
      rw [hv]
      unfold runPipeline fetchCommitsFromGitHub
      rw [hf]
      simp [handleCatch, h400]

/-- Witness for C3: a 429 with a secondary-rate-limit body surfaces as 429
with the message verbatim; a 403 with a plain permission message surfaces
as 403 with that message. -/
theorem secondary_rate_limit_classified_witness :
    GET egEnv (some "2025-01-01") (some "2025-01-02")
        (fun _ => ⟨429, some "You have exceeded a secondary rate limit", []⟩)
        1 "N" (.ok "x") false "M" =
      ⟨.err 429 "You have exceeded a secondary rate limit", true, false⟩ ∧
    GET egEnv (some "2025-01-01") (some "2025-01-02")
        (fun _ => ⟨403, some "Resource not accessible by integration", []⟩)
        1 "N" (.ok "x") false "M" =
      ⟨.err 403 "Resource not accessible by integration", true, false⟩ :=
  ⟨(secondary_rate_limit_classified.2 egEnv (some "2025-01-01") (some "2025-01-02") "owner/repo" "tok" "2025-01-01"
      "2025-01-02" (some "gpt-5") _ 0 "N" (.ok "x") "M" 429
      "You have exceeded a secondary rate limit" rfl rfl (Or.inr rfl)
      rfl).1 (by decide),
    (secondary_rate_limit_classified.2 egEnv (some "2025-01-01") (some "2025-01-02") "owner/repo" "tok" "2025-01-01"
      "2025-01-02" (some "gpt-5") _ 0 "N" (.ok "x") "M" 403
      "Resource not accessible by integration" rfl rfl (Or.inl rfl)
      rfl).2 (by decide)⟩

lemma fetchGo_upstream (pages : Nat → GitHubPage) (now : String)
    (page : Nat) (acc : List CommitSummary) (fuel : Nat) (s : Nat) (m : String)
    (hst : (pages page).status = s) (hs : ¬(s = 403 ∨ s = 429))
    (hok : ¬(200 ≤ s ∧ s < 300)) (hm : (pages page).bodyMessage = some m) :
    fetchGo pages now page acc (fuel + 1) = .error (.upstreamError "github" s m) := by
  have hs1 : s ≠ 403 := fun h => hs (Or.inl h)
  have hs2 : s ≠ 429 := fun h => hs (Or.inr h)
  simp only [fetchGo]
  rw [if_neg (by rw [hst]; simp [hs1, hs2])]
  rw [if_pos (by rw [hst]; simp; omega)]
  rw [hm]
  simp only [Option.getD_some]
  rw [hst]

/-- C4 counterexample: a GitHub 404 with body message "Not Found" is
surfaced to the client as status 404, not as 502. -/
theorem upstream_not_always_502_cex :
    (GET egEnv (some "2025-01-01") (some "2025-01-02")
        (fun _ => ⟨404, some "Not Found", []⟩) 1 "N" (.ok "x") false "M").response =
      .err 404 "Not Found" ∧
    GetResult.err 404 "Not Found" ≠ GetResult.err 502 "Not Found" :=
  ⟨rfl, by decide⟩

/-- C4 amended: a non-success host response outside the 403/429 inspection
is wrapped as `UpstreamError("github", status, message)` and surfaced with
the host's own status when it is ≥ 400 (502 otherwise); a model-call error
other than cancellation is surfaced with the provider's numeric status
field when that is ≥ 400 (502 when absent or below 400). -/
theorem upstream_failures_surfaced :
    (∀ (pages : Nat → GitHubPage) now page acc fuel s m,
      (pages page).status = s → ¬(s = 403 ∨ s = 429) → ¬(200 ≤ s ∧ s < 300) →
      (pages page).bodyMessage = some m →
      fetchGo pages now page acc (fuel + 1) = .error (.upstreamError "github" s m)) ∧
    (∀ env qs qe repo token start endS model (pages : Nat → GitHubPage)
        fuel nowFetch mr nowMeta s m,
      validateGet env qs qe = .ok (repo, token, start, endS, model) →
      (pages 1).status = s → ¬(s = 403 ∨ s = 429) → ¬(200 ≤ s ∧ s < 300) →
      (pages 1).bodyMessage = some m →
      GET env qs qe pages (fuel + 1) nowFetch mr false nowMeta =
        ⟨.err (if 400 ≤ s then s else 502) m, true, false⟩) ∧
    (∀ env qs qe repo token start endS model (pages : Nat → GitHubPage)
        fuel nowFetch nowMeta st m commits,
      validateGet env qs qe = .ok (repo, token, start, endS, model) →
      fetchCommitsFromGitHub repo token (toIsoRange start endS).1
        (toIsoRange start endS).2 pages nowFetch fuel = .ok commits →
      0 < commits.length →
      env.openaiApiKey.getD "" ≠ "" → model.getD "" ≠ "" →
      GET env qs qe pages fuel nowFetch (.error (.genericError st (some m)))
          false nowMeta =
        ⟨.err (if 400 ≤ st.getD 502 then st.getD 502 else 502) m, true, true⟩) := by
  refine ⟨fun pages now page acc fuel s m hst hs hok hm =>
    fetchGo_upstream pages now page acc fuel s m hst hs hok hm, ?_, ?_⟩
  · intro env qs qe repo token start endS model pages fuel nowFetch mr nowMeta s m
      hv hst hs hok hm
    have hf := fetchGo_upstream pages nowFetch 1 [] fuel s m hst hs hok hm
    unfold GET
    rw [hv]
    unfold runPipeline fetchCommitsFromGitHub
    rw [hf]
    rfl
  · intro env qs qe repo token start endS model pages fuel nowFetch nowMeta st m
      commits hv hf hlen hkey hmodel
    have hg : generateSummaryHtml (model.getD "") (env.openaiApiKey.getD "")
        repo start endS commits (.error (.genericError st (some m))) =
        (.error (.upstreamError "openai" (st.getD 502) m), true) := by
      have h0 : commits.length ≠ 0 := Nat.pos_iff_ne_zero.mp hlen
      unfold generateSummaryHtml
      rw [if_neg (by simp [hkey])]
      rw [if_neg (by simp [hmodel])]
      rw [if_neg (by simp [h0])]
      rfl
    unfold GET
    rw [hv]
    unfold runPipeline
    dsimp only
    rw [hf]
    dsimp only
    rw [if_pos hlen]
    rw [hg]
    rfl

/-- Witness for C4: concrete 404 and 500 host responses surface as 404 and
500 respectively, and a model error with no status field surfaces as 502. -/
theorem upstream_failures_surfaced_witness :
    GET egEnv (some "2025-01-01") (some "2025-01-02")
        (fun _ => ⟨500, some "Server Error", []⟩) 1 "N" (.ok "x") false "M" =
      ⟨.err 500 "Server Error", true, false⟩ ∧
    GET egEnv (some "2025-01-01") (some "2025-01-02") egPages 5 "N"
        (.error (.genericError none (some "connection reset"))) false "M" =
      ⟨.err 502 "connection reset", true, true⟩ := by
  constructor
  · exact (upstream_failures_surfaced.2.1 egEnv (some "2025-01-01")
      (some "2025-01-02") "owner/repo" "tok" "2025-01-01" "2025-01-02"
      (some "gpt-5") _ 0 "N" (.ok "x") "M" 500 "Server Error" rfl rfl
      (by omega) (by omega) rfl)
  · exact (upstream_failures_surfaced.2.2 egEnv (some "2025-01-01")
      (some "2025-01-02") "owner/repo" "tok" "2025-01-01" "2025-01-02"
      (some "gpt-5") egPages 5 "N" "M" none "connection reset" egBatch rfl rfl
      (by decide) (by decide) (by decide))

/-- C5: when the commit retrieval succeeds with an empty batch, the model
is never invoked and `summary_html` is the fixed empty-range sentence
naming `start` and `end`. -/
theorem empty_batch_skips_model
    (env : Env) (qs qe : Option String) (repo token start endS : String)
    (model : Option String) (pages : Nat → GitHubPage) (fuel : Nat)
    (nowFetch : String) (mr : Except JsError String) (ab : Bool) (nowMeta : String)
    (hv : validateGet env qs qe = .ok (repo, token, start, endS, model))
    (hf : fetchCommitsFromGitHub repo token (toIsoRange start endS).1
        (toIsoRange start endS).2 pages nowFetch fuel = .ok []) :
    GET env qs qe pages fuel nowFetch mr ab nowMeta =
      ⟨.ok (mkBody repo start endS [] model nowMeta
        ("<section><p>No commits found between " ++ start ++ " and " ++ endS ++
          ".</p></section>")), true, false⟩ := by
  unfold GET
  rw [hv]
  unfold runPipeline
  dsimp only
  rw [hf]
  rfl

/-- Witness for C5: an empty host range yields the fixed sentence and no
model call. -/
theorem empty_batch_skips_model_witness :
    GET egEnv (some "2025-01-01") (some "2025-01-02") (fun _ => ⟨200, none, []⟩)
        1 "N" (.ok "ignored") false "M" =
      ⟨.ok (mkBody "owner/repo" "2025-01-01" "2025-01-02" [] (some "gpt-5") "M"
        "<section><p>No commits found between 2025-01-01 and 2025-01-02.</p></section>"),
        true, false⟩ :=
  empty_batch_skips_model egEnv (some "2025-01-01") (some "2025-01-02")
    "owner/repo" "tok" "2025-01-01" "2025-01-02" (some "gpt-5") _ 1 "N"
    (.ok "ignored") false "M" rfl rfl

lemma escapeChar_no_angle (c : Char) :
    ∀ ch ∈ (escapeChar c).data, ch ≠ '<' ∧ ch ≠ '>' := by
  intro ch h
  unfold escapeChar at h
  split_ifs at h with h1 h2 h3 h4 h5
  · rw [show ("&amp;" : String).data = ['&', 'a', 'm', 'p', ';'] from rfl] at h
    fin_cases h <;> exact ⟨by decide, by decide⟩
  · rw [show ("&lt;" : String).data = ['&', 'l', 't', ';'] from rfl] at h
    fin_cases h <;> exact ⟨by decide, by decide⟩
  · rw [show ("&gt;" : String).data = ['&', 'g', 't', ';'] from rfl] at h
    fin_cases h <;> exact ⟨by decide, by decide⟩
  · rw [show ("&quot;" : String).data = ['&', 'q', 'u', 'o', 't', ';'] from rfl] at h
    fin_cases h <;> exact ⟨by decide, by decide⟩
  · rw [show ("&#39;" : String).data = ['&', '#', '3', '9', ';'] from rfl] at h
    fin_cases h <;> exact ⟨by decide, by decide⟩
  · rw [show (String.singleton c).data = [c] from rfl] at h
    simp only [List.mem_singleton] at h
    subst h
    refine ⟨fun hc => h2 ?_, fun hc => h3 ?_⟩
    · rw [hc]; rfl
    · rw [hc]; rfl

lemma escapeHtml_no_angle_aux (l : List Char) :
    ∀ acc : String, (∀ ch ∈ acc.data, ch ≠ '<' ∧ ch ≠ '>') →
      ∀ ch ∈ (l.foldl (fun acc c => acc ++ escapeChar c) acc).data,
        ch ≠ '<' ∧ ch ≠ '>' := by
  induction l with
  | nil => intro acc hacc ch h; exact hacc ch h
  | cons c rest ih =>
    intro acc hacc ch h
    refine ih (acc ++ escapeChar c) ?_ ch h
    intro ch' h'
    rw [String.data_append] at h'
    rcases List.mem_append.mp h' with h' | h'
    · exact hacc ch' h'
    · exact escapeChar_no_angle c ch' h'

lemma insertGrouped_grouped (key : String) (c : CommitSummary)
    (hc : commitDayKey c = key) :
    ∀ acc : List (String × List CommitSummary),
      (∀ e ∈ acc, ∀ x ∈ e.2, commitDayKey x = e.1) →
      ∀ e ∈ insertGrouped acc key c, ∀ x ∈ e.2, commitDayKey x = e.1 := by
  intro acc
  induction acc with
  | nil =>
    intro _ e he x hx
    simp only [insertGrouped, List.mem_singleton] at he
    subst he
    simp only [List.mem_singleton] at hx
    subst hx
    exact hc
  | cons a rest ih =>
    intro hacc e he x hx
    simp only [insertGrouped] at he
    split at he
    · rename_i hkey
      rcases List.mem_cons.mp he with rfl | he
      · rcases List.mem_append.mp hx with hx' | hx'
        · exact hacc a (List.mem_cons_self _ _) x hx'
        · simp only [List.mem_singleton] at hx'
          subst hx'
          have ha : a.1 = key := by simpa using hkey
          rw [show (a.1, a.2 ++ [x]).1 = a.1 from rfl, ha]
          exact hc
      · exact hacc e (List.mem_cons_of_mem a he) x hx
    · rcases List.mem_cons.mp he with rfl | he
      · exact hacc e (List.mem_cons_self _ _) x hx
      · exact ih (fun e' he' => hacc e' (List.mem_cons_of_mem a he')) e he x hx

lemma groupByDay_grouped (commits : List CommitSummary) :
    ∀ e ∈ groupByDay commits, ∀ x ∈ e.2, commitDayKey x = e.1 := by
  have main : ∀ (l : List CommitSummary) (acc : List (String × List CommitSummary)),
      (∀ e ∈ acc, ∀ x ∈ e.2, commitDayKey x = e.1) →
      ∀ e ∈ l.foldl (fun acc c => insertGrouped acc (commitDayKey c) c) acc,
        ∀ x ∈ e.2, commitDayKey x = e.1 := by
    intro l
    induction l with
    | nil => intro acc hacc; exact hacc
    | cons c rest ih =>
      intro acc hacc
      simp only [List.foldl_cons]
      exact ih _ (insertGrouped_grouped (commitDayKey c) c rfl acc hacc)
  exact main commits [] (by simp)

lemma sortEntries_sorted (l : List (String × List CommitSummary)) :
    ((sortEntries l).map Prod.fst).Sorted (· ≤ ·) := by
  have h : (sortEntries l).Sorted entryLE := List.sorted_insertionSort entryLE l
  exact List.pairwise_map.mpr h

/-- C6: a whitespace-only model response (for a configured composer and a
non-empty batch) makes `generateSummaryHtml` return the deterministic
fallback built by `buildFallbackSummary`; the fallback's `grouped` map
collects each commit under its UTC day key, its sections are emitted in
ascending day-key order, and HTML-escaped text never contains a raw angle
bracket. -/
theorem whitespace_fallback_structure :
    (∀ model apiKey repo start endS commits resp,
      model ≠ "" → apiKey ≠ "" → commits ≠ [] → strTrim resp = "" →
      generateSummaryHtml model apiKey repo start endS commits (.ok resp) =
        (.ok (buildFallbackSummary repo start endS commits), true)) ∧
    (∀ commits : List CommitSummary,
      ((sortEntries (groupByDay commits)).map Prod.fst).Sorted (· ≤ ·)) ∧
    (∀ commits : List CommitSummary, ∀ e ∈ groupByDay commits, ∀ x ∈ e.2,
      commitDayKey x = e.1) ∧
    (∀ s : String, ∀ ch ∈ (escapeHtml s).data, ch ≠ '<' ∧ ch ≠ '>') := by
  refine ⟨?_, fun commits => sortEntries_sorted _,
    fun commits => groupByDay_grouped commits, ?_⟩
  · intro model apiKey repo start endS commits resp hm hk hc hw
    have h0 : commits.length ≠ 0 := fun h => hc (List.length_eq_zero.mp h)
    unfold generateSummaryHtml
    rw [if_neg (by simp [hk])]
    rw [if_neg (by simp [hm])]
    rw [if_neg (by simp [h0])]
    dsimp only
    rw [hw]
    rfl
  · intro s ch h
    refine escapeHtml_no_angle_aux s.data "" (by simp) ch ?_
    simpa [escapeHtml] using h

/-- Witness for C6: a whitespace-only response on a concrete batch
produces the fallback, and escaping a script tag leaves no angle
brackets. -/
theorem whitespace_fallback_structure_witness :
    generateSummaryHtml "gpt-5" "key" "owner/repo" "2025-01-01" "2025-01-07"
        egBatch (.ok " \n  ") =
      (.ok (buildFallbackSummary "owner/repo" "2025-01-01" "2025-01-07" egBatch), true) ∧
    ∀ ch ∈ (escapeHtml "<script>alert(1)</script>").data, ch ≠ '<' ∧ ch ≠ '>' :=
  ⟨whitespace_fallback_structure.1 "gpt-5" "key" "owner/repo" "2025-01-01"
      "2025-01-07" egBatch " \n  " (by decide) (by decide) (by decide) (by decide),
    fun ch h => whitespace_fallback_structure.2.2.2 "<script>alert(1)</script>" ch h⟩

/-- An environment with no model credential configured. -/
def c7Env : Env := ⟨some "owner/repo", some "tok", none, some "gpt-5", none⟩

/-- The success body the handler builds for an empty batch under `c7Env`. -/
def c7Body : DeployReportResponse :=
  mkBody "owner/repo" "2025-01-01" "2025-01-02" [] (some "gpt-5") "M"
    "<section><p>No commits found between 2025-01-01 and 2025-01-02.</p></section>"

/-- C7 counterexample: with the model credential missing but the commit
batch empty, the pipeline answers 200 with the empty-range body, not a 500
configuration error — the composer (and its configuration check) is never
reached. -/
theorem missing_model_config_cex :
    (GET c7Env (some "2025-01-01") (some "2025-01-02") (fun _ => ⟨200, none, []⟩)
        1 "N" (.ok "x") false "M").response = .ok c7Body ∧
    ∀ msg, GetResult.ok c7Body ≠ GetResult.err 500 msg :=
  ⟨rfl, fun _ h => GetResult.noConfusion h⟩

/-- C7 amended: for a valid window whose retrieval succeeds with a
non-empty batch, a missing model credential (or, with the credential
present, a missing model identifier) is answered with a 500 configuration
error, and the model is never contacted. -/
theorem missing_model_config_500
    (env : Env) (qs qe : Option String) (repo token start endS : String)
    (model : Option String) (pages : Nat → GitHubPage) (fuel : Nat)
    (nowFetch : String) (mr : Except JsError String) (nowMeta : String)
    (commits : List CommitSummary)
    (hv : validateGet env qs qe = .ok (repo, token, start, endS, model))
    (hf : fetchCommitsFromGitHub repo token (toIsoRange start endS).1
        (toIsoRange start endS).2 pages nowFetch fuel = .ok commits)
    (hne : commits ≠ []) :
    (env.openaiApiKey.getD "" = "" →
      GET env qs qe pages fuel nowFetch mr false nowMeta =
        ⟨.err 500 "OPENAI_API_KEY is not configured.", true, false⟩) ∧
    (env.openaiApiKey.getD "" ≠ "" → model.getD "" = "" →
      GET env qs qe pages fuel nowFetch mr false nowMeta =
        ⟨.err 500 "OpenAI model is not configured.", true, false⟩) := by
  have hlen : 0 < commits.length := by
    cases commits
    · exact absurd rfl hne
    · simp
  constructor
  · intro hkey
    have hg : generateSummaryHtml (model.getD "") (env.openaiApiKey.getD "")
        repo start endS commits mr =
        (.error (.httpError 500 "OPENAI_API_KEY is not configured."), false) := by
      unfold generateSummaryHtml
      rw [if_pos (by simp [hkey])]
    unfold GET
    rw [hv]
    unfold runPipeline
    dsimp only
    rw [hf]
    dsimp only
    rw [if_pos hlen, hg]
    rfl
  · intro hkey hmodel
    have hg : generateSummaryHtml (model.getD "") (env.openaiApiKey.getD "")
        repo start endS commits mr =
        (.error (.httpError 500 "OpenAI model is not configured."), false) := by
      unfold generateSummaryHtml
      rw [if_neg (by simp [hkey]), if_pos (by simp [hmodel])]
    unfold GET
    rw [hv]
    unfold runPipeline
    dsimp only
    rw [hf]
    dsimp only
    rw [if_pos hlen, hg]
    rfl

/-- Witness for C7: missing credential with a non-empty batch yields the
500 configuration error without a model call. -/
theorem missing_model_config_500_witness :
    GET c7Env (some "2025-01-01") (some "2025-01-02") egPages 5 "N" (.ok "x")
        false "M" =
      ⟨.err 500 "OPENAI_API_KEY is not configured.", true, false⟩ :=
  (missing_model_config_500 c7Env (some "2025-01-01") (some "2025-01-02")
    "owner/repo" "tok" "2025-01-01" "2025-01-02" (some "gpt-5") egPages 5 "N"
    (.ok "x") "M" egBatch rfl rfl (by decide)).1 rfl

/-- The commits list of a success response (`none` on an error response). -/
def commitsOf : GetResult → Option (List CommitSummary)
  | .ok body => some body.commits
  | .err _ _ => none

/-- A host whose single record carries neither an author date nor a
committer date, forcing the `new Date().toISOString()` fallback. -/
def c8Pages : Nat → GitHubPage :=
  fun _ => ⟨200, none, [⟨"aaa", none, none, none, none, some "Fix tests", none, some 1⟩]⟩

/-- One run of the pipeline over `c8Pages` at fetch-time reading `nf`. -/
def c8Run (nf : String) : GetOutcome :=
  GET egEnv (some "2025-01-01") (some "2025-01-02") c8Pages 1 nf
    (.ok "<p>ok</p>") false "M"

/-- C8 counterexample: two runs over identical upstream data whose only
difference is the retrieval-time clock reading return different `commits`
arrays (the dateless record is stamped with the clock), even though
`meta.generated_at` is identical — so more than `meta.generated_at` can
differ between the runs. -/
theorem reports_idempotent_cex :
    (commitsOf (c8Run "2025-09-09T00:00:00.000Z").response).isSome = true ∧
    (commitsOf (c8Run "2025-09-10T00:00:00.000Z").response).isSome = true ∧
    commitsOf (c8Run "2025-09-09T00:00:00.000Z").response ≠
      commitsOf (c8Run "2025-09-10T00:00:00.000Z").response :=
  ⟨rfl, rfl, by decide⟩

lemma normalizeCommit_now_eq (c : GitHubCommit)
    (h : c.commitAuthorDate.isSome = true ∨ c.commitCommitterDate.isSome = true)
    (n₁ n₂ : String) : normalizeCommit n₁ c = normalizeCommit n₂ c := by
  unfold normalizeCommit
  split
  · rfl
  · rcases hA : c.commitAuthorDate with _ | d
    · rcases hB : c.commitCommitterDate with _ | d
      · rw [hA] at h
        rw [hB] at h
        simp at h
      · simp [hA, hB]
    · simp [hA]

lemma processPage_now_eq (l : List GitHubCommit) :
    (∀ g ∈ l, g.commitAuthorDate.isSome = true ∨ g.commitCommitterDate.isSome = true) →
    ∀ n₁ n₂, processPage n₁ l = processPage n₂ l := by
  induction l with
  | nil => intro _ n₁ n₂; rfl
  | cons c rest ih =>
    intro h n₁ n₂
    unfold processPage at *
    simp only [List.filterMap_cons]
    rw [normalizeCommit_now_eq c (h c (List.mem_cons_self _ _)) n₁ n₂]
    have ih' := ih (fun g hg => h g (List.mem_cons_of_mem c hg)) n₁ n₂
    cases normalizeCommit n₂ c <;> simp [ih']

lemma fetchGo_now_eq (pages : Nat → GitHubPage)
    (h : ∀ p, ∀ g ∈ (pages p).commits,
      g.commitAuthorDate.isSome = true ∨ g.commitCommitterDate.isSome = true)
    (n₁ n₂ : String) :
    ∀ fuel page acc, fetchGo pages n₁ page acc fuel = fetchGo pages n₂ page acc fuel := by
  intro fuel
  induction fuel with
  | zero => intro page acc; rfl
  | succ k ih =>
    intro page acc
    simp only [fetchGo]
    rw [processPage_now_eq (pages page).commits (h page) n₁ n₂]
    split
    · rfl
    · split
      · rfl
      · split
        · rfl
        · exact ih (page + 1) _

/-- C8 amended: two runs with an identical window, identical configuration
and identical upstream data agree on everything except
`meta.generated_at`, provided every upstream record carries an author date
or a committer date; a record with neither is stamped with the
retrieval-time clock and may differ between runs. -/
theorem reports_idempotent_modulo_time
    (env : Env) (qs qe : Option String) (pages : Nat → GitHubPage) (fuel : Nat)
    (mr : Except JsError String) (ab : Bool) (nf₁ nm₁ nf₂ nm₂ : String)
    (hdates : ∀ p, ∀ g ∈ (pages p).commits,
      g.commitAuthorDate.isSome = true ∨ g.commitCommitterDate.isSome = true) :
    setGeneratedAt (GET env qs qe pages fuel nf₁ mr ab nm₁).response "" =
      setGeneratedAt (GET env qs qe pages fuel nf₂ mr ab nm₂).response "" ∧
    commitsOf (GET env qs qe pages fuel nf₁ mr ab nm₁).response =
      commitsOf (GET env qs qe pages fuel nf₂ mr ab nm₂).response := by
  unfold GET
  cases hv : validateGet env qs qe with
  | error sm =>
    obtain ⟨s, m⟩ := sm
    simp [hv]
  | ok t =>
    obtain ⟨repo, token, start, endS, model⟩ := t
    simp only [hv]
    unfold runPipeline
    dsimp only
    have hfeq : fetchCommitsFromGitHub repo token (toIsoRange start endS).1
        (toIsoRange start endS).2 pages nf₁ fuel =
        fetchCommitsFromGitHub repo token (toIsoRange start endS).1
          (toIsoRange start endS).2 pages nf₂ fuel := by
      unfold fetchCommitsFromGitHub
      exact fetchGo_now_eq pages hdates nf₁ nf₂ fuel 1 []
    rw [hfeq]
    cases hres : fetchCommitsFromGitHub repo token (toIsoRange start endS).1
        (toIsoRange start endS).2 pages nf₂ fuel with
    | error e => exact ⟨rfl, rfl⟩
    | ok commits =>
      dsimp only
      split
      · cases hg : generateSummaryHtml (model.getD "") (env.openaiApiKey.getD "")
            repo start endS commits mr with
        | mk r called =>
          cases r with
          | error e => exact ⟨rfl, rfl⟩
          | ok html =>
            dsimp only
            exact ⟨rfl, rfl⟩
      · exact ⟨rfl, rfl⟩

/-- A host whose records all carry an author date. -/
def c8wPages : Nat → GitHubPage := fun _ => ⟨200, none, [egRaw, egMergeRaw]⟩

/-- Witness for C8: with dated upstream records, two runs at different
clock readings agree up to `meta.generated_at`. -/
theorem reports_idempotent_modulo_time_witness :
    setGeneratedAt (GET egEnv (some "2025-01-01") (some "2025-01-07") c8wPages 5
        "N1" (.ok "<p>r</p>") false "M1").response "" =
      setGeneratedAt (GET egEnv (some "2025-01-01") (some "2025-01-07") c8wPages 5
        "N2" (.ok "<p>r</p>") false "M2").response "" ∧
    commitsOf (GET egEnv (some "2025-01-01") (some "2025-01-07") c8wPages 5
        "N1" (.ok "<p>r</p>") false "M1").response =
      commitsOf (GET egEnv (some "2025-01-01") (some "2025-01-07") c8wPages 5
        "N2" (.ok "<p>r</p>") false "M2").response :=
  reports_idempotent_modulo_time egEnv (some "2025-01-01") (some "2025-01-07")
    c8wPages 5 (.ok "<p>r</p>") false "N1" "M1" "N2" "M2"
    (by
      intro p g hg
      simp [c8wPages] at hg
      rcases hg with rfl | rfl
      · exact Or.inl rfl
      · exact Or.inl rfl)

/-- C9: the single deadline (the 120 000 ms `TOTAL_TIMEOUT_MS` timer) has
fired when an error reaches the `catch` — whichever stage was in flight,
whatever partial progress was made, and whatever the error was — the
handler answers 504 with the timeout message. -/
theorem deadline_exceeded_504 :
    TOTAL_TIMEOUT_MS = 120000 ∧
    (∀ env qs qe repo token start endS model (pages : Nat → GitHubPage)
        fuel nowFetch mr nowMeta e,
      validateGet env qs qe = .ok (repo, token, start, endS, model) →
      fetchCommitsFromGitHub repo token (toIsoRange start endS).1
        (toIsoRange start endS).2 pages nowFetch fuel = .error e →
      GET env qs qe pages fuel nowFetch mr true nowMeta =
        ⟨.err 504 "Processing exceeded the 120s timeout.", true, false⟩) ∧
    (∀ env qs qe repo token start endS model (pages : Nat → GitHubPage)
        fuel nowFetch mr nowMeta commits e called,
      validateGet env qs qe = .ok (repo, token, start, endS, model) →
      fetchCommitsFromGitHub repo token (toIsoRange start endS).1
        (toIsoRange start endS).2 pages nowFetch fuel = .ok commits →
      0 < commits.length →
      generateSummaryHtml (model.getD "") (env.openaiApiKey.getD "") repo start
        endS commits mr = (.error e, called) →
      GET env qs qe pages fuel nowFetch mr true nowMeta =
        ⟨.err 504 "Processing exceeded the 120s timeout.", true, called⟩) := by
  refine ⟨rfl, ?_, ?_⟩
  · intro env qs qe repo token start endS model pages fuel nowFetch mr nowMeta e
      hv hf
    unfold GET
    rw [hv]
    unfold runPipeline
    dsimp only
    rw [hf]
    rfl
  · intro env qs qe repo token start endS model pages fuel nowFetch mr nowMeta
      commits e called hv hf hlen hg
    unfold GET
    rw [hv]
    unfold runPipeline
    dsimp only
    rw [hf]
    dsimp only
    rw [if_pos hlen, hg]
    rfl

/-- Witness for C9: with the deadline flag set, a failing fetch and a
failing model call each surface as 504 with the timeout message. -/
theorem deadline_exceeded_504_witness :
    GET egEnv (some "2025-01-01") (some "2025-01-02")
        (fun _ => ⟨500, some "boom", []⟩) 1 "N" (.ok "x") true "M" =
      ⟨.err 504 "Processing exceeded the 120s timeout.", true, false⟩ ∧
    GET egEnv (some "2025-01-01") (some "2025-01-02") egPages 5 "N"
        (.error (.abortError "The operation was aborted.")) true "M" =
      ⟨.err 504 "Processing exceeded the 120s timeout.", true, true⟩ :=
  ⟨deadline_exceeded_504.2.1 egEnv (some "2025-01-01") (some "2025-01-02")
      "owner/repo" "tok" "2025-01-01" "2025-01-02" (some "gpt-5") _ 1 "N"
      (.ok "x") "M" (.upstreamError "github" 500 "boom") rfl rfl,
    deadline_exceeded_504.2.2 egEnv (some "2025-01-01") (some "2025-01-02")
      "owner/repo" "tok" "2025-01-01" "2025-01-02" (some "gpt-5") egPages 5 "N"
      (.error (.abortError "The operation was aborted.")) "M" egBatch
      (.abortError "The operation was aborted.") true rfl rfl (by decide) rfl⟩

/-- The success body the handler builds for an empty batch under `egEnv`
at completion time "2025-10-11T12:00:00.000Z". -/
def c10Body : DeployReportResponse :=
  mkBody "owner/repo" "2025-01-01" "2025-01-02" [] (some "gpt-5")
    "2025-10-11T12:00:00.000Z"
    "<section><p>No commits found between 2025-01-01 and 2025-01-02.</p></section>"

/-- C10 counterexample: a success response carries
`meta.source = "github_live"`, which is not the string "live". -/
theorem live_marker_cex :
    (GET egEnv (some "2025-01-01") (some "2025-01-02") (fun _ => ⟨200, none, []⟩)
        1 "N" (.ok "x") false "2025-10-11T12:00:00.000Z").response = .ok c10Body ∧
    c10Body.meta.source = "github_live" ∧ c10Body.meta.source ≠ "live" :=
  ⟨rfl, rfl, by decide⟩

lemma handleCatch_ne_ok (ab : Bool) (e : JsError) (body : DeployReportResponse) :
    handleCatch ab e ≠ .ok body := by
  unfold handleCatch
  split
  · simp
  · cases e <;> simp

/-- C10 amended: every success response carries the fixed marker
`meta.source = "github_live"` (distinguishing the live path), and
`meta.generated_at` is the handler's own completion-time reading, not any
upstream timestamp. -/
theorem meta_source_and_time (env : Env) (qs qe : Option String)
    (pages : Nat → GitHubPage) (fuel : Nat) (nowFetch : String)
    (mr : Except JsError String) (ab : Bool) (nowMeta : String)
    (body : DeployReportResponse)
    (h : (GET env qs qe pages fuel nowFetch mr ab nowMeta).response = .ok body) :
    body.meta.source = "github_live" ∧ body.meta.generated_at = nowMeta := by
  unfold GET at h
  cases hv : validateGet env qs qe with
  | error sm =>
    obtain ⟨s, m⟩ := sm
    rw [hv] at h
    exact absurd h (by simp)
  | ok t =>
    obtain ⟨repo, token, start, endS, model⟩ := t
    rw [hv] at h
    unfold runPipeline at h
    dsimp only at h
    cases hres : fetchCommitsFromGitHub repo token (toIsoRange start endS).1
        (toIsoRange start endS).2 pages nowFetch fuel with
    | error e =>
      rw [hres] at h
      dsimp only at h
      exact absurd h (handleCatch_ne_ok ab e body)
    | ok commits =>
      rw [hres] at h
      dsimp only at h
      split at h
      · cases hg : generateSummaryHtml (model.getD "") (env.openaiApiKey.getD "")
            repo start endS commits mr with
        | mk r called =>
          rw [hg] at h
          cases r with
          | error e =>
            dsimp only at h
            exact absurd h (handleCatch_ne_ok ab e body)
          | ok html =>
            dsimp only at h
            injection h with h
            rw [← h]
            exact ⟨rfl, rfl⟩
      · dsimp only at h
        injection h with h
        rw [← h]
        exact ⟨rfl, rfl⟩

/-- Witness for C10: a concrete success body has the `github_live` marker
and the handler's completion time. -/
theorem meta_source_and_time_witness :
    c7Body.meta.source = "github_live" ∧ c7Body.meta.generated_at = "M" :=
  meta_source_and_time c7Env (some "2025-01-01") (some "2025-01-02")
    (fun _ => ⟨200, none, []⟩) 1 "N" (.ok "x") false "M" c7Body rfl

end ReleaseReports
